import Mathlib

/-!
Verification of the Not-Yet monitoring subsystem.

This file gives a shallow embedding of the metrics-collection core
(`src/monitoring/metrics_collector.py`, `src/monitoring/middleware.py`,
`src/kali_server.py` `/metrics` endpoint) and settles the stated
properties against it.

Modelling conventions:
- Python `float` values are embedded as `ℚ`;
- `datetime` instants are embedded as `Int` seconds (so `timedelta(hours=h)`
  is `h * 3600` and `timedelta(minutes=m)` is `m * 60`);
- the `deque(maxlen=...)` buffer is a `List Metric` with explicit eviction;
- dictionaries are association lists preserving insertion order;
- raised exceptions are `Except` errors.
-/

namespace NotYet

/-- The `Metric` dataclass: one named, timestamped, tagged numeric data point. -/
structure Metric where
  name : String
  value : ℚ
  timestamp : Int
  tags : List (String × String)
deriving DecidableEq, Repr

/-- Python `collections.deque(maxlen)` append semantics: when the deque is
at capacity, the oldest (leftmost) element is discarded before the new one
is appended; with `maxlen = 0` nothing is ever stored. -/
def dequeAppend (maxlen : Nat) (buf : List Metric) (m : Metric) : List Metric :=
  if maxlen = 0 then []
  else if maxlen ≤ buf.length then buf.drop 1 ++ [m]
  else buf ++ [m]

/-- Python `str.split(sep)` for a one-character separator, over the char
list: splitting the empty string yields `[""]`, adjacent separators yield
empty segments. -/
def splitOnChar (c : Char) : List Char → List (List Char)
  | [] => [[]]
  | x :: xs =>
      let r := splitOnChar c xs
      if x = c then [] :: r
      else
        match r with
        | [] => [[x]]
        | y :: ys => (x :: y) :: ys

/-- Last dot-segment of a metric name: the final element of the name split on dots. -/
def lastDotSegment (name : String) : String :=
  String.mk ((splitOnChar '.' name.data).getLastD [])

/-- Dictionary lookup `self.alert_thresholds.get(metric_key)` over an insertion-ordered map. -/
def lookupThreshold (thresholds : List (String × ℚ)) (key : String) : Option ℚ :=
  (thresholds.find? (fun p => p.1 == key)).map Prod.snd

/-- The warning logged by `MetricsCollector._check_alerts`, carrying the
metric name, the metric value and the exceeded threshold. -/
structure Alert where
  name : String
  value : ℚ
  threshold : ℚ
deriving DecidableEq, Repr

/-- Model of `MetricsCollector._check_alerts`: look the last dot-segment of the name
up in `alert_thresholds`; `if threshold and metric.value > threshold` emits
the warning.  Python truthiness makes both a missing key (`None`) and a
threshold of `0.0` skip the comparison. -/
def checkAlerts (thresholds : List (String × ℚ)) (m : Metric) : Option Alert :=
  match lookupThreshold thresholds (lastDotSegment m.name) with
  | none => none
  | some t => if t ≠ 0 ∧ m.value > t then some ⟨m.name, m.value, t⟩ else none

/-- The collector state the claims touch: the bounded metrics buffer plus
the configuration fixed in `MetricsCollector.__init__` (`buffer_size`,
`alert_thresholds`, `metrics_retention_hours`). -/
structure StoreState where
  buffer : List Metric
  thresholds : List (String × ℚ)
  bufferSize : Nat
  retentionHours : Int
deriving DecidableEq, Repr

/-- Model of `MetricsCollector.add_metric`: append the metric to the bounded buffer
and run the (stateless) alert check on it, returning the emitted warning. -/
def addMetric (st : StoreState) (m : Metric) : StoreState × Option Alert :=
  ({ st with buffer := dequeAppend st.bufferSize st.buffer m },
   checkAlerts st.thresholds m)

/-- A sequence of `add_metric` calls, recording the warning (or absence of
one) emitted by each call in order. -/
def addMetrics (st : StoreState) (ms : List Metric) : StoreState × List (Option Alert) :=
  match ms with
  | [] => (st, [])
  | m :: rest =>
      let p := addMetric st m
      let q := addMetrics p.1 rest
      (q.1, p.2 :: q.2)

/-- The `start_index` scan of `MetricsCollector._cleanup_old_metrics`: index
of the first buffered metric with `timestamp >= cutoff`, and `0` when no
such metric exists (the loop body never runs its `break`). -/
def cleanupStartIndex (cutoff : Int) (buf : List Metric) : Nat :=
  match buf.findIdx? (fun m => decide (cutoff ≤ m.timestamp)) with
  | some i => i
  | none => 0

/-- Model of `MetricsCollector._cleanup_old_metrics`: compute the retention cutoff
`now - timedelta(hours=retention)` and pop `start_index` metrics from the
left of the buffer. -/
def cleanupOldMetrics (retentionHours : Int) (now : Int) (buf : List Metric) : List Metric :=
  let cutoff := now - retentionHours * 3600
  buf.drop (cleanupStartIndex cutoff buf)

/-- Python substring containment `needle in hay`. -/
def strContainsSub (hay needle : String) : Bool :=
  hay.data.tails.any (fun t => needle.data.isPrefixOf t)

/-- Python truthiness of an optional string (`None` and `""` are falsy). -/
def truthyStr : Option String → Bool
  | none => false
  | some s => !(s == "")

/-- Python truthiness fallback of `time_range or timedelta(hours=1)`:
both a missing time range (`None`) and a zero time range are falsy and
fall back to the one-hour default; any nonzero time range is truthy. -/
def timeRangeOrDefault : Option Int → Int
  | none => 3600
  | some t => if t = 0 then 3600 else t

/-- Model of `MetricsCollector.get_metrics`: the cutoff is `now` minus the
truthiness fallback of the time range (defaulting to one hour); a metric
is skipped when its timestamp is before the cutoff, or when a truthy
`name_pattern` is not a substring of its name. -/
def getMetrics (now : Int) (namePattern : Option String) (timeRange : Option Int)
    (buf : List Metric) : List Metric :=
  let cutoff := now - timeRangeOrDefault timeRange
  buf.filter (fun m =>
    decide (cutoff ≤ m.timestamp) &&
    !(truthyStr namePattern && !(strContainsSub m.name (namePattern.getD ("")))))

def mA : Metric := ⟨"tool.nmap.execution_time", 1, 10, []⟩

def mB : Metric := ⟨"tool.nmap.execution_time", 2, 20, []⟩

def mC : Metric := ⟨"system.cpu.percent", 5, 30, []⟩

def staleMetric : Metric := ⟨"system.cpu.percent", 1, 0, []⟩

def demoQueryBuf : List Metric :=
  [⟨"tool.nmap.execution_time", 2, 7000, []⟩, ⟨"system.cpu.percent", 3, 7100, []⟩]

/-- An exception raised by a registered check function: the code captures
`str(e)` for the response entry and `type(e).__name__` for the error
metric tag. -/
structure Exc where
  typeName : String
  msg : String
deriving DecidableEq, Repr

/-- The mapping returned by a check function: its `healthy` key (possibly
absent, in which case the getter defaults it to false) plus the
remaining detail fields, which the dict spread carries into the response
entry unchanged. -/
structure CheckRet where
  healthyField : Option Bool
  detail : List (String × String)
deriving DecidableEq, Repr

/-- The per-check entry `HealthCheckManager.run_all_checks` places in
`results[name]`: on success the returned mapping of the check plus the measured
duration; on a raise a mapping of a false `healthy` flag and `str(e)`. -/
inductive CheckEntry where
  | ok (ret : CheckRet) (duration : ℚ)
  | failed (errMsg : String)
deriving DecidableEq, Repr

/-- The `healthy` field of a response entry: the (optional) value returned by the check
on success, a forced `False` on a raise. -/
def CheckEntry.healthyVal : CheckEntry → Option Bool
  | .ok ret _ => ret.healthyField
  | .failed _ => some false

/-- One observation handed to `MetricsCollector.add_metric` (the store
timestamps it on ingestion). -/
structure EmittedMetric where
  name : String
  value : ℚ
  tags : List (String × String)
deriving DecidableEq, Repr

/-- Body of the `run_all_checks` loop for one registered check, given the
measured duration: the response entry, the `healthy` contribution to
`overall_healthy`, and the metrics handed to the store.  Success records
`health_check.<name>.duration` and `health_check.<name>.status`; a raise
records only `health_check.<name>.errors`. -/
def runCheck (dur : String → ℚ) (name : String) (outcome : Except Exc CheckRet) :
    CheckEntry × Bool × List EmittedMetric :=
  match outcome with
  | .ok ret =>
      (CheckEntry.ok ret (dur name),
       ret.healthyField.getD false,
       [⟨"health_check." ++ name ++ ".duration", dur name, [("check", name)]⟩,
        ⟨"health_check." ++ name ++ ".status",
          if ret.healthyField.getD false then 1 else 0, [("check", name)]⟩])
  | .error e =>
      (CheckEntry.failed e.msg, false,
       [⟨"health_check." ++ name ++ ".errors", 1,
         [("check", name), ("error_type", e.typeName)]⟩])

/-- The value returned by `run_all_checks`, together with the observations
it pushed into the metrics store along the way. -/
structure RunAllResult where
  overallHealthy : Bool
  entries : List (String × CheckEntry)
  emitted : List EmittedMetric
deriving DecidableEq, Repr

/-- Model of `HealthCheckManager.run_all_checks`: iterate the registered checks in
registration order, isolating each invocation; `overall_healthy` starts
true and is cleared by any unhealthy or raising check.  The wall-clock
duration measured for each check is supplied by `dur`. -/
def runAllChecks (dur : String → ℚ) :
    List (String × Except Exc CheckRet) → RunAllResult
  | [] => ⟨true, [], []⟩
  | (n, oc) :: rest =>
      let p := runCheck dur n oc
      let r := runAllChecks dur rest
      ⟨p.2.1 && r.overallHealthy, (n, p.1) :: r.entries, p.2.2 ++ r.emitted⟩

/-- The two demo checks of the concrete scenario in the spec: `always_healthy`
returns `{healthy: true}`, `always_fails` raises. -/
def demoChecks : List (String × Except Exc CheckRet) :=
  [("always_healthy", Except.ok ⟨some true, []⟩),
   ("always_fails", Except.error ⟨"RuntimeError", "boom"⟩)]

/-- Name sanitization: replace every dot and dash in the metric name with an underscore. -/
def sanitizeName (s : String) : String :=
  String.mk (s.data.map (fun c => if c = '.' ∨ c = '-' then '_' else c))

/-- Label rendering: the comma-join of the `k="v"` pairs of the tag map,
wrapped in braces when the joined string is truthy (non-empty). -/
def tagsSuffix (tags : List (String × String)) : String :=
  let ts := String.intercalate (",") (tags.map (fun p => p.1 ++ "=\"" ++ p.2 ++ "\""))
  if ts = "" then ("") else ("\x7b" ++ ts ++ "\x7d")

/-- Decimal rendering of a metric value, standing in for the Python
formatted value. -/
def promValue (v : ℚ) : String := toString v

/-- One Prometheus data line: `f"notyyet_{metric_name}{tags_str} {metric.value}"`. -/
def promLine (m : Metric) : String :=
  "notyyet_" ++ (sanitizeName m.name ++ (tagsSuffix m.tags ++ (" " ++ promValue m.value)))

/-- Keep the first metric seen for each name, in encounter order — the
contents of a dict populated by `if metric.name not in latest_metrics`. -/
def firstByName : List Metric → List Metric
  | [] => []
  | m :: rest => m :: (firstByName rest).filter (fun x => !(x.name == m.name))

/-- The `latest_metrics` dict of `_export_prometheus`: iterate
`reversed(self.metrics_buffer)` and keep the first metric seen per name. -/
def latestMetrics (buf : List Metric) : List Metric :=
  firstByName buf.reverse

def helpLine : String :=
  "# HELP notyyet_system_metrics System metrics from Not-Yet platform"

def typeLine : String := "# TYPE notyyet_system_metrics gauge"

/-- The `lines` list built by `_export_prometheus`: the single HELP/TYPE
preamble followed by one data line per entry of `latest_metrics`. -/
def exportPrometheusLines (buf : List Metric) : List String :=
  helpLine :: typeLine :: (latestMetrics buf).map promLine

/-- Model of `MetricsCollector._export_prometheus`: the newline-join of the lines. -/
def exportPrometheus (buf : List Metric) : String :=
  String.intercalate ("\n") (exportPrometheusLines buf)

/-- The `ServerHealth` dataclass (the fields `_export_json` serializes). -/
structure ServerHealth where
  serverName : String
  status : String
  lastCheck : Int
  responseTime : ℚ
  errorMessage : Option String
  toolsStatus : List (String × Bool)
deriving DecidableEq, Repr

/-- Per-name entry of `get_summary_stats`. -/
structure SummaryStat where
  count : Nat
  avg : ℚ
  min : ℚ
  max : ℚ
  latest : ℚ
deriving DecidableEq, Repr

/-- Python `min(values)`; the `0` branch is unreachable — the code only
computes statistics for non-empty groups. -/
def qMin : List ℚ → ℚ
  | [] => 0
  | v :: rest => rest.foldl min v

/-- Python `max(values)`; the `0` branch is unreachable. -/
def qMax : List ℚ → ℚ
  | [] => 0
  | v :: rest => rest.foldl max v

/-- Keep-first deduplication: the key order of a dict populated in
iteration order. -/
def dedupKeepFirst : List String → List String
  | [] => []
  | s :: rest => s :: (dedupKeepFirst rest).filter (fun x => !(x == s))

/-- The `recent_metrics` selection of `get_summary_stats`:
`m.timestamp >= datetime.now() - timedelta(minutes=5)`. -/
def recentWindow (now : Int) (buf : List Metric) : List Metric :=
  buf.filter (fun m => decide (now - 5 * 60 ≤ m.timestamp))

/-- Model of `MetricsCollector.get_summary_stats`: group the last five minutes of
observations by name (first-occurrence order) and report
count/avg/min/max/latest per group; an empty window yields `{}`. -/
def getSummaryStats (now : Int) (buf : List Metric) : List (String × SummaryStat) :=
  let recent := recentWindow now buf
  (dedupKeepFirst (recent.map Metric.name)).map (fun n =>
    let vals := (recent.filter (fun m => m.name == n)).map Metric.value
    (n, { count := vals.length,
          avg := vals.sum / (vals.length : ℚ),
          min := qMin vals,
          max := qMax vals,
          latest := vals.getLastD 0 }))

/-- The document assembled by `_export_json` (the dict handed to
`json.dumps`): the full buffer snapshot, the health table, the summary
statistics and the export timestamp. -/
structure JsonExportDoc where
  metrics : List Metric
  health : List (String × ServerHealth)
  summary : List (String × SummaryStat)
  exportedAt : Int
deriving DecidableEq, Repr

/-- Model of `MetricsCollector._export_json`. -/
def exportJson (now : Int) (health : List (String × ServerHealth))
    (buf : List Metric) : JsonExportDoc :=
  { metrics := buf, health := health, summary := getSummaryStats now buf,
    exportedAt := now }

/-- The error raised on an unsupported export format string. -/
inductive ExportError where
  | valueError (msg : String)
deriving DecidableEq, Repr

/-- The two export payload shapes. -/
inductive ExportOutput where
  | jsonDoc (doc : JsonExportDoc)
  | promText (s : String)
deriving DecidableEq, Repr

/-- Model of `MetricsCollector.export_metrics`: dispatch on the format string,
raising `ValueError` on anything but `json` and `prometheus`. -/
def exportMetrics (now : Int) (health : List (String × ServerHealth))
    (buf : List Metric) (format : String) : Except ExportError ExportOutput :=
  if format == "json" then Except.ok (.jsonDoc (exportJson now health buf))
  else if format == "prometheus" then Except.ok (.promText (exportPrometheus buf))
  else Except.error (.valueError ("Unsupported format: " ++ format))

/-- Whether an `Except` computation succeeded. -/
def exceptIsOk {ε α : Type} : Except ε α → Bool
  | .ok _ => true
  | .error _ => false

/-- Response body shapes of the `/metrics` endpoint. -/
inductive EndpointBody where
  | monitoringUnavailable
  | promBody (s : String)
  | jsonBody (d : JsonExportDoc)
  | errorBody (msg : String)
deriving DecidableEq, Repr

/-- Model of `kali_server.metrics_endpoint`: 503 when monitoring is unavailable;
otherwise export with the `format` query parameter defaulting to
`prometheus`, answering 200 with the export, or 500 with the caught
message of the caught exception — the handler returns in every case. -/
def metricsEndpoint (monitoringAvailable : Bool) (now : Int)
    (health : List (String × ServerHealth)) (buf : List Metric)
    (formatParam : Option String) : Nat × EndpointBody :=
  if !monitoringAvailable then (503, .monitoringUnavailable)
  else
    match exportMetrics now health buf (formatParam.getD ("prometheus")) with
    | .ok (.promText s) => (200, .promBody s)
    | .ok (.jsonDoc d) => (200, .jsonBody d)
    | .error (.valueError msg) => (500, .errorBody msg)

/-- One observed iteration of `_collection_loop`: its index, whether its
body raised (and was caught and logged), and the sleep that followed
(the fixed 5-second backoff after a failure, the collection interval
otherwise). -/
inductive LoopEvent where
  | iter (idx : Nat) (failed : Bool) (sleepSecs : Nat)
deriving DecidableEq, Repr

/-- Whether an `Except` computation raised. -/
def exceptFailed {ε α : Type} : Except ε α → Bool
  | .ok _ => false
  | .error _ => true

/-- Model of `MetricsCollector._collection_loop`, unrolled with fuel: `running k`
is the value of `self.is_running` read at the top of the `while` for the
`k`-th check (cleared externally by `stop_collection`), and `outcome k`
is the result of the `k`-th iteration body (collect metrics, collect
health, cleanup). A raising body is caught and recorded with its 5-second
backoff; the loop recurses while the flag holds. -/
def collectionLoop (interval : Nat) (running : Nat → Bool)
    (outcome : Nat → Except String Unit) : Nat → Nat → List LoopEvent
  | 0, _ => []
  | fuel + 1, k =>
      if running k then
        LoopEvent.iter k (exceptFailed (outcome k))
            (if exceptFailed (outcome k) then 5 else interval)
          :: collectionLoop interval running outcome fuel (k + 1)
      else []

end NotYet

namespace NotYet

/-- Helper: a full buffer evicts exactly its oldest element. -/
theorem dequeAppend_full (c : Nat) (hc : 0 < c) (buf : List Metric) (m : Metric)
    (hfull : c ≤ buf.length) : dequeAppend c buf m = buf.drop 1 ++ [m] := by
  unfold dequeAppend
  rw [if_neg (by omega), if_pos hfull]

/-- Helper: folding appends over a buffer within capacity keeps exactly the
most recent `c` elements of everything ever appended. -/
theorem foldl_dequeAppend (c : Nat) (hc : 0 < c) :
    ∀ (ms buf : List Metric), buf.length ≤ c →
      List.foldl (dequeAppend c) buf ms = (buf ++ ms).drop (buf.length + ms.length - c) := by
  intro ms
  induction ms with
  | nil =>
      intro buf h
      simp [Nat.sub_eq_zero_of_le h]
  | cons m rest ih =>
      intro buf h
      simp only [List.foldl_cons]
      by_cases hfull : c ≤ buf.length
      · have heq : buf.length = c := Nat.le_antisymm h hfull
        rw [dequeAppend_full c hc buf m hfull]
        have hlen : (buf.drop 1 ++ [m]).length ≤ c := by
          simp [List.length_drop]
          omega
        rw [ih _ hlen]
        obtain ⟨b0, btail, rfl⟩ : ∃ b0 btail, buf = b0 :: btail := by
          cases buf with
          | nil => simp at heq; omega
          | cons a l => exact ⟨a, l, rfl⟩
        simp only [List.length_cons, List.drop_succ_cons, List.drop_zero,
          List.cons_append, List.length_append, List.length_singleton] at *
        have h1 : btail.length + 1 + (rest.length + 1) - c = rest.length + 1 := by omega
        have h2 : btail.length + (List.length ([] : List Metric) + 1) + rest.length - c
            = rest.length := by simp; omega
        rw [h1, h2, List.drop_succ_cons, List.append_assoc]
        simp
      · have hstep : dequeAppend c buf m = buf ++ [m] := by
          unfold dequeAppend
          rw [if_neg (by omega), if_neg hfull]
        rw [hstep, ih _ (by simp; omega)]
        rw [List.append_assoc]
        congr 1
        simp
        omega

/-- Helper: a run of `add_metric` calls only changes the buffer, folding
the deque append over it; configuration fields are untouched. -/
theorem addMetrics_state (st : StoreState) (ms : List Metric) :
    (addMetrics st ms).1 =
      { st with buffer := List.foldl (dequeAppend st.bufferSize) st.buffer ms } := by
  induction ms generalizing st with
  | nil => simp [addMetrics]
  | cons m rest ih => simp [addMetrics, addMetric, ih]

/-- Helper: the warnings emitted by a run of `add_metric` calls are exactly
the per-metric alert checks, in order — the alert path is stateless. -/
theorem addMetrics_alerts (st : StoreState) (ms : List Metric) :
    (addMetrics st ms).2 = ms.map (checkAlerts st.thresholds) := by
  induction ms generalizing st with
  | nil => rfl
  | cons m rest ih => simp [addMetrics, addMetric, ih]

/-- C1: starting from an empty store, any sequence of `append` calls longer
than the configured capacity leaves the buffer holding exactly the most
recent `capacity` observations, and every append against a full buffer
evicts exactly the oldest entry first. -/
theorem store_capacity_eviction (st : StoreState) (ms : List Metric)
    (hc : 0 < st.bufferSize) (hempty : st.buffer = [])
    (hlen : st.bufferSize < ms.length) :
    (addMetrics st ms).1.buffer = ms.drop (ms.length - st.bufferSize) ∧
    ((addMetrics st ms).1.buffer).length = st.bufferSize ∧
    ∀ (buf : List Metric) (m : Metric), st.bufferSize ≤ buf.length →
      dequeAppend st.bufferSize buf m = buf.drop 1 ++ [m] := by
  have hbuf : (addMetrics st ms).1.buffer = ms.drop (ms.length - st.bufferSize) := by
    rw [addMetrics_state]
    simp only
    rw [hempty, foldl_dequeAppend st.bufferSize hc ms [] (by simp)]
    simp
  refine ⟨hbuf, ?_, ?_⟩
  · rw [hbuf]
    simp [List.length_drop]
    omega
  · intro buf m hfull
    exact dequeAppend_full st.bufferSize hc buf m hfull

/-- C1 witness: capacity 2, three appends retain the last two. -/
theorem store_capacity_eviction_witness :
    (addMetrics ⟨[], [], 2, 24⟩ [mA, mB, mC]).1.buffer = [mB, mC] := by
  have h := store_capacity_eviction ⟨[], [], 2, 24⟩ [mA, mB, mC]
    (by decide) rfl (by decide)
  simpa using h.1

/-- C2 (code bug): with the default 24-hour retention, a buffer whose
observations are all older than the cutoff is untouched by
`_cleanup_old_metrics` — the scan for the first fresh metric never fires,
`start_index` stays `0`, and nothing is removed, contradicting the claim
that every observation with `timestamp < now - retention` is removed. -/
theorem cleanup_retains_all_stale_buffer :
    cleanupOldMetrics 24 100000 [staleMetric] = [staleMetric] ∧
    staleMetric.timestamp < 100000 - 24 * 3600 := by
  constructor
  · rfl
  · decide

/-- C3 counterexample: an observation two hours old is still retained
(24-hour retention leaves it in place) but `get_metrics` with no filters
silently applies the default one-hour window and omits it, so a query with
no filters does not return every retained observation. -/
theorem query_default_window_counterexample :
    getMetrics 7200 none none [staleMetric] = [] ∧
    cleanupOldMetrics 24 7200 [staleMetric] = [staleMetric] := by
  constructor
  · rfl
  · rfl

/-- C3 (amended): `get_metrics` returns a subsequence of the buffer (so
insertion order is preserved), and an observation is returned iff it is
retained, lies within the requested time window — where both a missing
and a zero time range fall back to the one-hour default by Python
truthiness — and, when a non-empty name filter is given, its name
contains the filter substring. -/
theorem query_characterization (now : Int) (pat : Option String) (tr : Option Int)
    (buf : List Metric) :
    (getMetrics now pat tr buf).Sublist buf ∧
    ∀ m, m ∈ getMetrics now pat tr buf ↔
      (m ∈ buf ∧ now - timeRangeOrDefault tr ≤ m.timestamp ∧
        (truthyStr pat = true → strContainsSub m.name (pat.getD ("")) = true)) := by
  constructor
  · exact List.filter_sublist _
  · intro m
    simp only [getMetrics, List.mem_filter, Bool.and_eq_true, decide_eq_true_eq,
      Bool.not_eq_true', Bool.and_eq_false_iff, Bool.not_eq_false]
    constructor
    · rintro ⟨hm, hts, hp⟩
      refine ⟨hm, hts, fun htru => ?_⟩
      rcases hp with hp | hp
      · rw [htru] at hp
        exact absurd hp (by simp)
      · simpa using hp
    · rintro ⟨hm, hts, himp⟩
      refine ⟨hm, hts, ?_⟩
      cases htru : truthyStr pat with
      | false => exact Or.inl rfl
      | true => exact Or.inr (by simpa using himp htru)

/-- C3 witness: a fresh observation whose name contains the filter is
returned by the query. -/
theorem query_characterization_witness :
    (⟨"tool.nmap.execution_time", 2, 7000, []⟩ : Metric) ∈
      getMetrics 7200 (some ("nmap")) none demoQueryBuf :=
  ((query_characterization 7200 (some ("nmap")) none demoQueryBuf).2 _).mpr (by decide)

/-- C4 counterexample: with a configured threshold of exactly `0.0` for key
`cpu`, an observation of value `1` exceeds the threshold, yet the Python
truthiness test `if threshold and ...` treats the `0.0` threshold as falsy and no warning
is emitted. -/
theorem zero_threshold_counterexample :
    checkAlerts [("cpu", 0)] ⟨"system.cpu", 1, 0, []⟩ = none ∧
    lookupThreshold [("cpu", 0)] (lastDotSegment ("system.cpu")) = some 0 ∧
    (1 : ℚ) > 0 := by
  refine ⟨rfl, rfl, by norm_num⟩

/-- C4 (amended): whenever the threshold keyed by the last dot-segment of
the name of the observation exists, is nonzero, and the value exceeds it,
exactly that one warning (with name, value and threshold) is emitted; and
the alert path is stateless — a run of appends emits exactly the
per-observation checks in order, with no suppression. -/
theorem alert_on_exceed (thr : List (String × ℚ)) (m : Metric) (t : ℚ)
    (hl : lookupThreshold thr (lastDotSegment m.name) = some t)
    (ht : t ≠ 0) (hv : m.value > t) :
    checkAlerts thr m = some ⟨m.name, m.value, t⟩ ∧
    ∀ (st : StoreState) (ms : List Metric),
      (addMetrics st ms).2 = ms.map (checkAlerts st.thresholds) := by
  constructor
  · unfold checkAlerts
    rw [hl]
    exact if_pos ⟨ht, hv⟩
  · intro st ms
    exact addMetrics_alerts st ms

/-- C4 witness: the default `cpu_percent` threshold of 80 fires on a
reading of 95. -/
theorem alert_on_exceed_witness :
    checkAlerts [("percent", 80)] ⟨"system.cpu.percent", 95, 0, []⟩ =
      some ⟨"system.cpu.percent", 95, 80⟩ :=
  (alert_on_exceed [("percent", 80)] ⟨"system.cpu.percent", 95, 0, []⟩ 80
    (by decide) (by norm_num) (by norm_num)).1

/-- Helper: `overall_healthy` is the conjunction over the response entries
of their (defaulted) `healthy` fields. -/
theorem runAll_overall_all (dur : String → ℚ)
    (checks : List (String × Except Exc CheckRet)) :
    (runAllChecks dur checks).overallHealthy =
      (runAllChecks dur checks).entries.all (fun p => (p.2.healthyVal).getD false) := by
  induction checks with
  | nil => rfl
  | cons c rest ih =>
      obtain ⟨n, oc⟩ := c
      cases oc with
      | ok ret => simp [runAllChecks, runCheck, CheckEntry.healthyVal, ih]
      | error e => simp [runAllChecks, runCheck, CheckEntry.healthyVal, ih]

/-- Helper: every registered check is run in order and its entry reflects
its own outcome. -/
theorem runAll_entries_match (dur : String → ℚ)
    (checks : List (String × Except Exc CheckRet)) :
    List.Forall₂ (fun c p => c.1 = p.1 ∧ p.2 = (runCheck dur c.1 c.2).1)
      checks (runAllChecks dur checks).entries := by
  induction checks with
  | nil => exact List.Forall₂.nil
  | cons c rest ih =>
      obtain ⟨n, oc⟩ := c
      exact List.Forall₂.cons ⟨rfl, rfl⟩ ih

/-- C5: if one registered check raises then `overall_healthy` is false and
the entry of the failing check records false health and `str(e)`; all
registered checks still execute and their entries report their own
outcomes; and `overall_healthy` is the logical AND of the (defaulted)
`healthy` field of every entry (with an absent field reading as false). -/
theorem runAll_isolated (dur : String → ℚ)
    (checks : List (String × Except Exc CheckRet)) (n : String) (e : Exc)
    (h : (n, Except.error e) ∈ checks) :
    (runAllChecks dur checks).overallHealthy = false ∧
    (n, CheckEntry.failed e.msg) ∈ (runAllChecks dur checks).entries ∧
    List.Forall₂ (fun c p => c.1 = p.1 ∧ p.2 = (runCheck dur c.1 c.2).1)
      checks (runAllChecks dur checks).entries ∧
    (runAllChecks dur checks).overallHealthy =
      (runAllChecks dur checks).entries.all (fun p => (p.2.healthyVal).getD false) := by
  refine ⟨?_, ?_, runAll_entries_match dur checks, runAll_overall_all dur checks⟩
  · induction h with
    | head rest => simp [runAllChecks, runCheck]
    | tail b hmem ih =>
        obtain ⟨n', oc⟩ := b
        simp [runAllChecks, ih]
  · induction h with
    | head rest => exact List.mem_cons_self _ _
    | tail b hmem ih =>
        obtain ⟨n', oc⟩ := b
        exact List.mem_cons_of_mem _ ih

/-- C5 witness: the concrete scenario of the spec — `always_healthy` plus a
raising `always_fails` yield `overall_healthy = false` with both entries
reporting their own outcome. -/
theorem runAll_isolated_witness :
    (runAllChecks (fun _ => 1) demoChecks).overallHealthy = false ∧
    ("always_fails", CheckEntry.failed ("boom")) ∈
      (runAllChecks (fun _ => 1) demoChecks).entries ∧
    List.Forall₂ (fun c p => c.1 = p.1 ∧ p.2 = (runCheck (fun _ => 1) c.1 c.2).1)
      demoChecks (runAllChecks (fun _ => 1) demoChecks).entries ∧
    (runAllChecks (fun _ => 1) demoChecks).overallHealthy =
      (runAllChecks (fun _ => 1) demoChecks).entries.all
        (fun p => (p.2.healthyVal).getD false) :=
  runAll_isolated (fun _ => 1) demoChecks ("always_fails") ⟨"RuntimeError", "boom"⟩
    (by simp [demoChecks])

/-- C6 counterexample: an invocation whose check raises emits only the
`health_check.<name>.errors` observation — neither the duration nor the
status observation is recorded for it. -/
theorem healthcheck_raise_emission_counterexample :
    ((runAllChecks (fun _ => 1)
        [("c", Except.error ⟨"RuntimeError", "x"⟩)]).emitted.map EmittedMetric.name)
      = ["health_check.c.errors"] ∧
    "health_check.c.duration" ∉
      ((runAllChecks (fun _ => 1)
        [("c", Except.error ⟨"RuntimeError", "x"⟩)]).emitted.map EmittedMetric.name) ∧
    "health_check.c.status" ∉
      ((runAllChecks (fun _ => 1)
        [("c", Except.error ⟨"RuntimeError", "x"⟩)]).emitted.map EmittedMetric.name) := by
  refine ⟨rfl, by decide, by decide⟩

/-- C6 (amended): the observations emitted by `run_all_checks` are exactly
the per-check emissions in registration order: a successful invocation
emits `health_check.<name>.duration` and `health_check.<name>.status`
(1.0/0.0); a raising invocation emits only `health_check.<name>.errors`. -/
theorem runAll_emissions (dur : String → ℚ)
    (checks : List (String × Except Exc CheckRet)) :
    (runAllChecks dur checks).emitted =
      (checks.map (fun c => (runCheck dur c.1 c.2).2.2)).flatten ∧
    (∀ (name : String) (ret : CheckRet),
      (runCheck dur name (Except.ok ret)).2.2 =
        [⟨"health_check." ++ name ++ ".duration", dur name, [("check", name)]⟩,
         ⟨"health_check." ++ name ++ ".status",
           if ret.healthyField.getD false then 1 else 0, [("check", name)]⟩]) ∧
    (∀ (name : String) (e : Exc),
      (runCheck dur name (Except.error e)).2.2 =
        [⟨"health_check." ++ name ++ ".errors", 1,
          [("check", name), ("error_type", e.typeName)]⟩]) := by
  refine ⟨?_, fun _ _ => rfl, fun _ _ => rfl⟩
  induction checks with
  | nil => rfl
  | cons c rest ih =>
      obtain ⟨n, oc⟩ := c
      simp [runAllChecks, ih]

/-- Helper: a string starting with `notyyet_` is never a `#`-preamble
line. -/
theorem notyyet_prefix_ne (s t : String) (ht : t.data.head? = some '#') :
    "notyyet_" ++ s ≠ t := by
  intro h
  have h1 := congrArg String.data h
  rw [String.data_append] at h1
  have h2 := congrArg List.head? h1
  rw [show ("notyyet_".data) = 'n' :: "otyyet_".data from rfl] at h2
  simp only [List.cons_append, List.head?_cons] at h2
  rw [ht] at h2
  exact absurd h2 (by decide)

/-- Helper: data lines are distinct from both preamble lines. -/
theorem promLine_ne_preamble (m : Metric) :
    promLine m ≠ helpLine ∧ promLine m ≠ typeLine :=
  ⟨notyyet_prefix_ne _ helpLine rfl, notyyet_prefix_ne _ typeLine rfl⟩

/-- Helper: `take 1` is the optional head. -/
theorem take_one_eq_head (l : List Metric) : l.take 1 = l.head?.toList := by
  cases l <;> rfl

/-- Helper: restricting the first-seen-per-name list to one name keeps
exactly the first occurrence of that name. -/
theorem firstByName_filter (n : String) : ∀ l : List Metric,
    (firstByName l).filter (fun x => x.name == n) =
      (l.filter (fun x => x.name == n)).take 1 := by
  intro l
  induction l with
  | nil => rfl
  | cons m rest ih =>
      by_cases hm : m.name = n
      · rw [firstByName, List.filter_cons_of_pos (by simp [hm]),
          List.filter_cons_of_pos (by simp [hm])]
        simp only [List.take_succ_cons, List.take_zero]
        rw [List.filter_filter]
        congr 1
        rw [List.filter_eq_nil_iff.mpr]
        intro x _
        subst hm
        cases hx : x.name == m.name <;> simp [hx]
      · rw [firstByName, List.filter_cons_of_neg (by simp [hm]),
          List.filter_cons_of_neg (by simp [hm])]
        rw [List.filter_filter, ← ih]
        apply List.filter_congr
        intro x _
        cases hx : x.name == n
        · simp [hx]
        · have hxn : x.name = n := by simpa using hx
          simp only [hx, Bool.true_and, Bool.and_true, Bool.not_eq_true']
          simp [hxn]
          exact fun h => hm h.symm

/-- Helper: per name, `latest_metrics` holds exactly the most recently
inserted buffered observation of that name. -/
theorem latestMetrics_filter (buf : List Metric) (n : String) :
    (latestMetrics buf).filter (fun m => m.name == n) =
      ((buf.filter (fun m => m.name == n)).getLast?).toList := by
  rw [latestMetrics, firstByName_filter, List.filter_reverse,
    take_one_eq_head, List.head?_reverse]

/-- C7: the Prometheus export is the single HELP line, the single TYPE
line, then exactly one data line per distinct metric name; the data line
for a name renders the most-recently-inserted observation of that name, with
`.`/`-` sanitized to `_` and tags as a label suffix. -/
theorem prometheus_export_shape (buf : List Metric) :
    exportPrometheus buf = String.intercalate ("\n") (exportPrometheusLines buf) ∧
    (exportPrometheusLines buf).count helpLine = 1 ∧
    (exportPrometheusLines buf).count typeLine = 1 ∧
    exportPrometheusLines buf = helpLine :: typeLine :: (latestMetrics buf).map promLine ∧
    (∀ n, (latestMetrics buf).filter (fun m => m.name == n) =
      ((buf.filter (fun m => m.name == n)).getLast?).toList) ∧
    (∀ m, promLine m =
      "notyyet_" ++ (sanitizeName m.name ++ (tagsSuffix m.tags ++ (" " ++ promValue m.value)))) := by
  have hnotmem_help : helpLine ∉ (latestMetrics buf).map promLine := by
    intro hmem
    obtain ⟨m, _, hm⟩ := List.mem_map.mp hmem
    exact (promLine_ne_preamble m).1 hm
  have hnotmem_type : typeLine ∉ (latestMetrics buf).map promLine := by
    intro hmem
    obtain ⟨m, _, hm⟩ := List.mem_map.mp hmem
    exact (promLine_ne_preamble m).2 hm
  have hht : helpLine ≠ typeLine := by decide
  refine ⟨rfl, ?_, ?_, rfl, latestMetrics_filter buf, fun m => rfl⟩
  · rw [exportPrometheusLines, List.count_cons_self, List.count_cons_of_ne hht,
      List.count_eq_zero.mpr hnotmem_help]
  · rw [exportPrometheusLines, List.count_cons_of_ne (Ne.symm hht), List.count_cons_self,
      List.count_eq_zero.mpr hnotmem_type]

/-- C8: `export_metrics` succeeds exactly for the formats `json` and
`prometheus`; any other format string raises
`ValueError(f"Unsupported format: {format}")`, which the `/metrics`
endpoint catches and reports to its caller as a 500 request error while
still returning a response, and the two supported formats are served with
status 200. -/
theorem export_format_validation (now : Int) (health : List (String × ServerHealth))
    (buf : List Metric) (fmt : String) :
    (exceptIsOk (exportMetrics now health buf fmt) = true ↔
      (fmt = "json" ∨ fmt = "prometheus")) ∧
    (¬(fmt = "json" ∨ fmt = "prometheus") →
      exportMetrics now health buf fmt =
        Except.error (.valueError ("Unsupported format: " ++ fmt)) ∧
      metricsEndpoint true now health buf (some fmt) =
        (500, .errorBody ("Unsupported format: " ++ fmt))) ∧
    ((fmt = "json" ∨ fmt = "prometheus") →
      (metricsEndpoint true now health buf (some fmt)).1 = 200) := by
  by_cases hj : fmt = "json"
  · subst hj
    simp [exportMetrics, exceptIsOk, metricsEndpoint]
  · by_cases hp : fmt = "prometheus"
    · subst hp
      simp [exportMetrics, exceptIsOk, metricsEndpoint]
    · have hj' : (fmt == "json") = false := by simp [hj]
      have hp' : (fmt == "prometheus") = false := by simp [hp]
      simp [exportMetrics, exceptIsOk, metricsEndpoint, hj', hp', hj, hp]

/-- C8 witness: `format=xml` is rejected with the ValueError message as a
500 request error. -/
theorem export_format_validation_witness :
    metricsEndpoint true 0 [] [] (some ("xml")) =
      (500, .errorBody ("Unsupported format: " ++ "xml")) :=
  ((export_format_validation 0 [] [] "xml").2.1 (by decide)).2

/-- Helper: the loop trace from any start index: while the running flag
holds it performs one iteration per index — recording the caught failure
and its 5-second backoff, or the interval sleep — and it stops exactly at
the first index where the flag was cleared, regardless of outcomes. -/
theorem loop_trace (interval : Nat) (running : Nat → Bool)
    (outcome : Nat → Except String Unit) :
    ∀ (n fuel start : Nat), (∀ j, j < n → running (start + j) = true) →
      running (start + n) = false → n < fuel →
      collectionLoop interval running outcome fuel start =
        (List.range n).map (fun j =>
          LoopEvent.iter (start + j) (exceptFailed (outcome (start + j)))
            (if exceptFailed (outcome (start + j)) then 5 else interval)) := by
  intro n
  induction n with
  | zero =>
      intro fuel start h hstop hfuel
      have h0 : running start = false := by simpa using hstop
      cases fuel with
      | zero => omega
      | succ f => simp [collectionLoop, h0]
  | succ n ih =>
      intro fuel start h hstop hfuel
      cases fuel with
      | zero => omega
      | succ f =>
          have h0 : running start = true := by simpa using h 0 (by omega)
          rw [collectionLoop, if_pos h0]
          rw [ih f (start + 1)
            (by
              intro j hj
              have e : start + 1 + j = start + (j + 1) := by omega
              rw [e]
              exact h (j + 1) (by omega))
            (by
              have e : start + 1 + n = start + (n + 1) := by omega
              rw [e]
              exact hstop)
            (by omega)]
          rw [List.range_succ_eq_map, List.map_cons, List.map_map]
          simp only [Nat.add_zero]
          congr 1
          apply List.map_congr_left
          intro j _
          simp only [Function.comp_apply, Nat.succ_eq_add_one]
          have e : start + 1 + j = start + (j + 1) := by omega
          rw [e]

/-- C9: while the running flag holds, every iteration of the collection
loop runs — a raising body is caught, recorded, and followed by the fixed
5-second backoff instead of the interval sleep — and the trace length is
determined solely by when the flag is cleared, never by iteration
failures: the loop ends exactly at the first flag check that reads
false. -/
theorem scheduler_loop_resilient (interval : Nat) (running : Nat → Bool)
    (outcome : Nat → Except String Unit) (n fuel : Nat)
    (hrun : ∀ j, j < n → running j = true) (hstop : running n = false)
    (hfuel : n < fuel) :
    collectionLoop interval running outcome fuel 0 =
      (List.range n).map (fun j =>
        LoopEvent.iter j (exceptFailed (outcome j))
          (if exceptFailed (outcome j) then 5 else interval)) ∧
    (collectionLoop interval running outcome fuel 0).length = n := by
  have h := loop_trace interval running outcome n fuel 0
    (by simpa using hrun) (by simpa using hstop) hfuel
  constructor
  · simpa using h
  · rw [h]
    simp

/-- C9 witness: with the flag cleared before the third check, a first
iteration that raises is followed by the 5-second backoff and the loop
still performs the second iteration. -/
theorem scheduler_loop_resilient_witness :
    collectionLoop 30 (fun k => decide (k < 2))
        (fun k => if k = 0 then Except.error ("probe failed") else Except.ok ()) 5 0 =
      [LoopEvent.iter 0 true 5, LoopEvent.iter 1 false 30] := by
  rw [(scheduler_loop_resilient 30 (fun k => decide (k < 2))
    (fun k => if k = 0 then Except.error ("probe failed") else Except.ok ()) 2 5
    (fun j hj => decide_eq_true hj) (by decide) (by decide)).1]
  rfl

/-- C10: the summary statistics depend only on the observations of the
last five minutes — restricting the buffer to that window changes
nothing, an empty window yields an empty summary, the JSON export embeds
exactly these statistics, and the summarised names are exactly the
(first-occurrence deduplicated) names seen in the window. -/
theorem summary_window (now : Int) (health : List (String × ServerHealth))
    (buf : List Metric) :
    getSummaryStats now buf = getSummaryStats now (recentWindow now buf) ∧
    (recentWindow now buf = [] → getSummaryStats now buf = []) ∧
    (exportJson now health buf).summary = getSummaryStats now buf ∧
    (getSummaryStats now buf).map Prod.fst =
      dedupKeepFirst ((recentWindow now buf).map Metric.name) := by
  have hidem : recentWindow now (recentWindow now buf) = recentWindow now buf := by
    rw [recentWindow, recentWindow, List.filter_filter]
    apply List.filter_congr
    intro a _
    exact Bool.and_self _
  refine ⟨?_, ?_, rfl, ?_⟩
  · simp only [getSummaryStats, hidem]
  · intro hempty
    simp [getSummaryStats, hempty, dedupKeepFirst]
  · simp only [getSummaryStats, List.map_map]
    exact List.map_id' _

/-- C10 witness: a buffer whose only observation is older than five
minutes yields an empty summary. -/
theorem summary_window_witness :
    getSummaryStats 100000 [staleMetric] = [] :=
  (summary_window 100000 [] [staleMetric]).2.1 rfl

end NotYet
